import Mathlib

/-!
# JIG.m1s.client : protocol engine and heartbeat

A shallow embedding of `src/protocol.c` and of the protocol part of
`src/client.c`.

* A byte (`char`) is a `Nat`; a character constant is written as its ASCII
  code, with the character in a comment.
* A `char` array is a `List Nat`.  `memset` and `memcpy` are list operations
  that keep the bytes they do not touch.  Automatic arrays that the C code
  does not initialise completely get their initial content as an argument.
* An `int` is an `Int`.
* Calls to collaborators that are not part of these sources (`uart_write`,
  `uart_read`, `ptc_event`, `device_check`, `ui_set_ritem`, `ui_set_sitem`,
  `ui_update`) are recorded, in order, as a list of `Event`s.
-/

namespace Jig

/-! ## Constants -/

/-- Constant `PROTOCOL_RX_BYTES` of `protocol.h`. -/
def PROTOCOL_RX_BYTES : Nat := 19

/-- Constant `PROTOCOL_TX_BYTES` of `protocol.h`. -/
def PROTOCOL_TX_BYTES : Nat := 13

/-- Constant `SIZE_RESP_BYTES` of `client.c`. -/
def SIZE_RESP_BYTES : Nat := 6

/-- Modelled from the spec: `SIZE_UI_ID` is defined in a header that is not
part of these sources; the item id field of a frame is 4 bytes wide. -/
def SIZE_UI_ID : Nat := 4

/-- Constant `ALIVE_DISPLAY_INTERVAL` of `client.c` (milliseconds). -/
def ALIVE_DISPLAY_INTERVAL : ℚ := 1000

/-- Constant `ALIVE_DISPLAY_UI_ID` of `client.c`. -/
def ALIVE_DISPLAY_UI_ID : Int := 0

/-- The bytes of a string literal (without the terminating NUL). -/
def bytes (s : String) : List Nat := s.toList.map Char.toNat

/-! ## C library -/

/-- C library `memset (buf, c, n)`: the first `n` bytes become `c`, the rest is kept. -/
def memset (buf : List Nat) (c : Nat) (n : Nat) : List Nat :=
  List.replicate n c ++ buf.drop n

/-- C library `memcpy (&dst[off], src, n)`: `n` bytes of `src` are stored from offset
`off` of `dst` on, the other bytes of `dst` are kept. -/
def memcpy (dst : List Nat) (off : Nat) (src : List Nat) (n : Nat) : List Nat :=
  dst.take off ++ src.take n ++ dst.drop (off + n)

/-- Storing a NUL terminated string `s` at the start of `buf`, as `sprintf`
and `strcpy` do: the characters, then a NUL, the rest of `buf` is kept. -/
def strstore (buf : List Nat) (s : List Nat) : List Nat :=
  s ++ [0] ++ buf.drop (s.length + 1)

/-- C library `isspace`, in the C locale. -/
def isspace (c : Nat) : Bool := c == 32 || (9 ≤ c && c ≤ 13)

/-- C library `isdigit`. -/
def isdigit (c : Nat) : Bool := 48 ≤ c && c ≤ 57

/-- The digit loop of `atoi`: it stops at the first byte that is not a
decimal digit (the terminating NUL is one), or at the end of the array. -/
def atoi_digits (acc : Nat) : List Nat → Nat
  | [] => acc
  | c :: cs => if isdigit c then atoi_digits (acc * 10 + (c - 48)) cs else acc

/-- C library `atoi`: leading white space, an optional sign, decimal digits.
The value is the mathematical one: it is the value of the C function as long
as it fits an `int`, which it does when fewer than 10 digits are read.  The
list is the memory `atoi` may read: where the C function would read on
behind an array, the list has to hold those bytes as well; the statements
below either end the reading inside the array (a byte that stops it) or take
a concrete list. -/
def atoi (s : List Nat) : Int :=
  match s.dropWhile isspace with
  | 45 :: r => - (atoi_digits 0 r : Int)      -- '-'
  | 43 :: r => (atoi_digits 0 r : Int)        -- '+'
  | r => (atoi_digits 0 r : Int)

/-- The digit loop of `printf` for a non-negative value: the digits of `n`,
most significant first, no leading zero.  The first argument bounds the
number of divisions by ten; `n` itself is always enough. -/
def dec_digits_fuel : Nat → Nat → List Nat
  | 0, n => [48 + n]
  | f + 1, n => if n < 10 then [48 + n] else dec_digits_fuel f (n / 10) ++ [48 + n % 10]

/-- The decimal digits `printf` emits for a non-negative value. -/
def dec_digits (n : Nat) : List Nat := dec_digits_fuel n n

/-- Left padding with `'0'` up to a minimum width. -/
def zero_pad (w : Nat) (ds : List Nat) : List Nat :=
  List.replicate (w - ds.length) 48 ++ ds

/-- The characters of `sprintf (_, "%04d", v)`: minimum width 4, padded with
zeros, the sign counts for the width. -/
def fmt_04d (v : Int) : List Nat :=
  if v < 0 then 45 :: zero_pad 3 (dec_digits v.natAbs)
  else zero_pad 4 (dec_digits v.toNat)

/-! ## Collaborators -/

/-- Modelled from the spec: `ptc_var_t` is declared in `lib_uart/lib_uart.h`,
which is not part of these sources; these are the fields `protocol.c` uses:
the circular buffer, its size, the start position of the window and the two
flags of the matcher. -/
structure ptc_var_t where
  size : Nat
  p_sp : Nat
  buf : List Nat
  pass : Nat
  open_ : Nat
deriving DecidableEq, Repr

/-- Modelled from the spec: a matcher group of `uart_t` (`puart->p[i]`). -/
structure ptc_grp_t where
  var : ptc_var_t
deriving DecidableEq, Repr

/-- Modelled from the spec: `uart_t` is declared in `lib_uart/lib_uart.h`;
`protocol.c` uses the number of groups and the groups. -/
structure uart_t where
  pcnt : Nat
  p : List ptc_grp_t
deriving DecidableEq, Repr

/-- The colours given to `ui_set_ritem`: `COLOR_GREEN` and the background
colour `bc` by `client_alive_display`, `COLOR_GREEN` and `COLOR_RED` by
`client_init_data`. -/
inductive Color where
  | COLOR_GREEN
  | bc
  | COLOR_RED
deriving DecidableEq, Repr

/-- A call to a collaborator, with the arguments that matter. -/
inductive Event where
  | uart_write (data : List Nat)
  | device_check (msg : List Nat)
  | ui_set_ritem (ui_id : Int) (rc : Color)
  | ui_update
  | ui_set_sitem (ui_id : Int) (str : List Nat)
  | uart_read
  | ptc_event (idata : Nat)
deriving DecidableEq, Repr

/-- The device check collaborator `int device_check (char *msg, char *resp)`:
from the request and the content of the result buffer on entry, the status
and the bytes it stores at `resp[0]`, `resp[1]`, ... -/
abbrev device_check_t := List Nat → List Nat → Int × List Nat

/-- The result buffer after the collaborator has stored `out` at its start. -/
def store (buf : List Nat) (out : List Nat) : List Nat :=
  out ++ buf.drop out.length

/-! ## protocol.c -/

/-- Function `protocol_check`: head and tail of the window of `size` bytes. -/
def protocol_check (var : ptc_var_t) : Int :=
  if var.buf.getD ((var.p_sp + var.size - 1) % var.size) 0 ≠ 35 then 0   -- '#'
  else if var.buf.getD (var.p_sp % var.size) 0 ≠ 64 then 0               -- '@'
  else 1

/-- Function `protocol_catch`: the command byte of the window. -/
def protocol_catch (var : ptc_var_t) : Int :=
  let cmd := var.buf.getD ((var.p_sp + 1) % var.size) 0
  if cmd = 67 ∨ cmd = 80 then 1                                          -- 'C' 'P'
  else 0

/-- The array `send_data` of `protocol_msg_tx` when it is handed to
`uart_write`.  Every one of its 13 bytes is assigned before, so that its
initial content does not matter.  For an item id from -999 to 9999 the
`%04d` rendering and its NUL take the 5 bytes of `str_ui_id` and this is the
array of the C function.  Outside this range `sprintf` stores more than 5
bytes and writes behind `str_ui_id`; which bytes of the function that
damages is not fixed by the source and is not described here: this
definition keeps the first 4 characters of the rendering and leaves the
other bytes as assigned. -/
def send_data (ack : Nat) (ui_id : Int) (resp : List Nat) : List Nat :=
  let send_data := List.replicate PROTOCOL_TX_BYTES 0
  let send_data := send_data.set 0 64                                    -- '@'
  let send_data := send_data.set 1 ack
  let str_ui_id := memset (List.replicate 5 0) 0 5
  let str_ui_id := strstore str_ui_id (fmt_04d ui_id)
  let send_data := memcpy send_data 2 str_ui_id 4
  let send_data := memcpy send_data 6 resp 6
  send_data.set 12 35                                                    -- '#'

/-- Function `protocol_msg_tx`: nothing without a uart, else the frame, a line feed
and a carriage return. -/
def protocol_msg_tx (puart : Option uart_t) (ack : Nat) (ui_id : Int)
    (resp : List Nat) : List Event :=
  match puart with
  | none => []
  | some _ =>
    [Event.uart_write ((send_data ack ui_id resp).take PROTOCOL_TX_BYTES),
     Event.uart_write [10],
     Event.uart_write [13]]

/-! ## client.c -/

/-- The fields of `client_t` the protocol uses. -/
structure client_t where
  puart : Option uart_t
  rx_msg : List Nat
deriving DecidableEq, Repr

/-- The local `int_ui_id` of `protocol_parse`: `str_ui_id`, whose content on
entry is `str0`, has its first `SIZE_UI_ID` bytes cleared and then
overwritten with the item id field `rx_msg[2..5]`; `atoi` reads the array. -/
def int_ui_id (p : client_t) (str0 : List Nat) : Int :=
  let str_ui_id := memset str0 0 SIZE_UI_ID
  let str_ui_id := memcpy str_ui_id 0 (p.rx_msg.drop 2) SIZE_UI_ID
  atoi str_ui_id

/-- Function `protocol_parse`.  `resp0` and `str0` are the contents of the automatic
arrays `resp` (7 bytes) and `str_ui_id` (5 bytes) on entry: the function
clears only their first 6 and 4 bytes. -/
def protocol_parse (device_check : device_check_t) (p : client_t)
    (resp0 str0 : List Nat) : List Event :=
  if p.rx_msg.getD 1 0 = 80 then                                         -- 'P'
    protocol_msg_tx p.puart 82 0 (bytes "000000" ++ [0])                 -- 'R'
  else
    let int_ui_id := int_ui_id p str0
    let resp := memset resp0 0 SIZE_RESP_BYTES
    let r := device_check p.rx_msg resp
    let status := r.1
    let resp := store resp r.2
    Event.device_check p.rx_msg ::
      (if status < 0 then protocol_msg_tx p.puart 66 int_ui_id resp      -- 'B'
       else protocol_msg_tx p.puart (if status ≠ 0 then 79 else 69) int_ui_id resp)

/-- C library `struct timeval`. -/
structure timeval where
  tv_sec : Int
  tv_usec : Int
deriving DecidableEq, Repr

/-- Function `run_interval_check`.  `base_time` is what `gettimeofday` stores; the
result is the content of `*t` after the call and the value returned.  The
`double` arithmetic is exact rational arithmetic: the operands are integers
and one division by 1000000, the exact value of `difftime` is a multiple of
1/1000000 and the rounding error of the division is far below that, so the
sign tested is the sign of the exact value. -/
def run_interval_check (t : timeval) (interval_ms : ℚ) (base_time : timeval) :
    timeval × Int :=
  if interval_ms ≠ 0 then
    let difftime : ℚ := ((base_time.tv_sec - t.tv_sec : Int) : ℚ) +
      (((base_time.tv_usec : ℚ) - ((t.tv_usec : ℚ) + interval_ms * 1000)) / 1000000)
    if difftime > 0 then (base_time, 1) else (t, 0)
  else (base_time, 1)

/-- The static variables of `client_alive_display`. -/
structure alive_t where
  i_time : timeval
  onoff : Int
deriving DecidableEq, Repr

/-- The static variables before the first call: zero initialised. -/
def alive_init : alive_t := ⟨⟨0, 0⟩, 0⟩

/-- Function `client_alive_display` (without `__JIG_RW_TEST__`); `now` is the time
`gettimeofday` reports during the call. -/
def client_alive_display (s : alive_t) (now : timeval) : alive_t × List Event :=
  let r := run_interval_check s.i_time ALIVE_DISPLAY_INTERVAL now
  if r.2 ≠ 0 then
    let ev := Event.ui_set_ritem ALIVE_DISPLAY_UI_ID
      (if s.onoff ≠ 0 then Color.COLOR_GREEN else Color.bc)
    let onoff : Int := if s.onoff ≠ 0 then 0 else 1
    (⟨r.1, onoff⟩, ev :: (if onoff ≠ 0 then [Event.ui_update] else []))
  else (⟨r.1, s.onoff⟩, [])

/-! ## Words of the specification -/

/-- The time from `t` to `now`, in microseconds. -/
def elapsed_us (t now : timeval) : Int :=
  (now.tv_sec - t.tv_sec) * 1000000 + (now.tv_usec - t.tv_usec)

/-- The four characters of a value written as a 4-digit zero padded decimal. -/
def four_digits (n : Nat) : List Nat :=
  [48 + n / 1000 % 10, 48 + n / 100 % 10, 48 + n / 10 % 10, 48 + n % 10]

/-- The characters of `sprintf (_, "%0wd", v)` for a width `w`. -/
def fmt_0d (w : Nat) (v : Int) : List Nat :=
  if v < 0 then 45 :: zero_pad (w - 1) (dec_digits v.natAbs)
  else zero_pad w (dec_digits v.toNat)

/-- Modelled from the spec: an item of `pui->i_item[]`; the type is declared
in `lib_fbui/lib_ui.h`, which is not part of these sources; these are the
fields `client_init_data` uses. -/
structure ui_item_t where
  ui_id : Int
  grp_id : Int
  dev_id : Int
  is_info : Int
deriving DecidableEq, Repr

/-- The array `msg` of `client_init_data` when it is given to `device_check`:
19 bytes cleared, then the `sprintf` of the info request; `msg0` is its
content before. -/
def init_msg (msg0 : List Nat) (it : ui_item_t) : List Nat :=
  strstore (memset msg0 0 PROTOCOL_RX_BYTES)
    (bytes "@C" ++ fmt_0d 4 it.ui_id ++ fmt_0d 2 it.grp_id ++ fmt_0d 3 it.dev_id
      ++ bytes "I0010#")

/-- The array `rx_msg` after the copy loop of `protocol_msg_rx`: bytes 0 to
18 come out of the circular buffer of the group, later bytes are kept. -/
def rx_copy (var : ptc_var_t) (rx_msg : List Nat) : List Nat :=
  (List.range PROTOCOL_RX_BYTES).map (fun i => var.buf.getD ((var.p_sp + i) % var.size) 0)
    ++ rx_msg.drop PROTOCOL_RX_BYTES

/-- The loop of `protocol_msg_rx` over the groups, from the index `p_cnt` on;
the first argument is the number of groups left, `pcnt - p_cnt`.  The result
is the uart, `rx_msg` and the value returned.  (The counter is an
`unsigned char` in C: the number of groups is below 256.  An index without a
group in `p` is passed over.) -/
def rx_scan (u : uart_t) (rx_msg : List Nat) : Nat → Nat → uart_t × List Nat × Int
  | 0, _ => (u, rx_msg, 0)
  | n + 1, p_cnt =>
    match u.p[p_cnt]? with
    | some g =>
      if g.var.pass ≠ 0 then
        (⟨u.pcnt, u.p.set p_cnt ⟨{ g.var with pass := 0, open_ := 1 }⟩⟩,
         rx_copy g.var rx_msg, 1)
      else rx_scan u rx_msg n (p_cnt + 1)
    | none => rx_scan u rx_msg n (p_cnt + 1)

/-- What `protocol_msg_rx` leaves: the uart, `rx_msg`, the value returned and
the calls made. -/
structure rx_result where
  puart : Option uart_t
  rx_msg : List Nat
  ret : Int
  events : List Event
deriving DecidableEq, Repr

/-- Function `protocol_msg_rx`.  `rd` is what `uart_read` delivers when it is
called: a byte, or nothing (it returns 0).  `ptc_event` is the matcher of
`lib_uart`, which is not part of these sources: from the uart and the byte
read, the uart with its groups updated. -/
def protocol_msg_rx (ptc_event : uart_t → Nat → uart_t) (puart : Option uart_t)
    (rx_msg : List Nat) (rd : Option Nat) : rx_result :=
  match puart with
  | none => ⟨none, rx_msg, 0, []⟩
  | some u =>
    match rd with
    | none => ⟨some u, rx_msg, 0, [Event.uart_read]⟩
    | some idata =>
      let u1 := ptc_event u idata
      let r := rx_scan u1 rx_msg u1.pcnt 0
      ⟨some r.1, r.2.1, r.2.2, [Event.uart_read, Event.ptc_event idata]⟩

/-! ## The main loop -/

/-- What one turn of the loop of `main` gets from outside: the time, what
`uart_read` delivers, the contents of the automatic arrays of
`protocol_parse` on entry. -/
structure loop_in where
  now : timeval
  rd : Option Nat
  resp0 : List Nat
  str0 : List Nat
deriving DecidableEq, Repr

/-- The state the loop of `main` works on. -/
structure loop_st where
  alive : alive_t
  client : client_t
deriving DecidableEq, Repr

/-- One turn of the `while (1)` of `main` (the `usleep` changes nothing). -/
def main_loop_body (device_check : device_check_t) (ptc_event : uart_t → Nat → uart_t)
    (st : loop_st) (i : loop_in) : loop_st × List Event :=
  let a := client_alive_display st.alive i.now
  let r := protocol_msg_rx ptc_event st.client.puart st.client.rx_msg i.rd
  let client : client_t := ⟨r.puart, r.rx_msg⟩
  let parse := if r.ret ≠ 0 then protocol_parse device_check client i.resp0 i.str0 else []
  (⟨a.1, client⟩, a.2 ++ r.events ++ parse)

/-- The turns of the loop of `main` for the inputs given, in order. -/
def main_loop (device_check : device_check_t) (ptc_event : uart_t → Nat → uart_t) :
    loop_st → List loop_in → loop_st × List Event
  | st, [] => (st, [])
  | st, i :: rest =>
    let r := main_loop_body device_check ptc_event st i
    let r2 := main_loop device_check ptc_event r.1 rest
    (r2.1, r.2 ++ r2.2)

/-- What one call of `client_alive_display` did: the value of
`run_interval_check`, the static variables after the call, the calls made. -/
structure alive_call where
  fired : Int
  after : alive_t
  events : List Event
deriving DecidableEq, Repr

/-- A sequence of calls of `client_alive_display`, at the times given. -/
def alive_run (s : alive_t) : List timeval → List alive_call
  | [] => []
  | now :: rest =>
    ⟨(run_interval_check s.i_time ALIVE_DISPLAY_INTERVAL now).2,
     (client_alive_display s now).1, (client_alive_display s now).2⟩
      :: alive_run (client_alive_display s now).1 rest

/-- The characters of a value written as a 2-digit zero padded decimal. -/
def two_digits (n : Nat) : List Nat := [48 + n / 10 % 10, 48 + n % 10]

/-- The characters of a value written as a 3-digit zero padded decimal. -/
def three_digits (n : Nat) : List Nat := [48 + n / 100 % 10, 48 + n / 10 % 10, 48 + n % 10]

/-- The bytes given to `uart_write`, in the order of the calls. -/
def uart_bytes : List Event → List Nat
  | [] => []
  | Event.uart_write data :: rest => data ++ uart_bytes rest
  | _ :: rest => uart_bytes rest

theorem dec_digits_fuel_indep (f : Nat) : ∀ g n : Nat, n ≤ f → n ≤ g →
    dec_digits_fuel f n = dec_digits_fuel g n := by
  induction f with
  | zero =>
    intro g n hf _
    have hn : n = 0 := by omega
    subst hn
    cases g <;> simp [dec_digits_fuel]
  | succ f ih =>
    intro g n hf hg
    cases g with
    | zero =>
      have hn : n = 0 := by omega
      subst hn
      simp [dec_digits_fuel]
    | succ g =>
      simp only [dec_digits_fuel]
      by_cases h : n < 10
      · simp [h]
      · simp only [h, if_false]
        rw [ih g (n / 10) (by omega) (by omega)]

theorem dec_digits_small (n : Nat) (h : n < 10) : dec_digits n = [48 + n] := by
  unfold dec_digits
  cases n with
  | zero => simp [dec_digits_fuel]
  | succ m => simp [dec_digits_fuel, h]

theorem dec_digits_step (n : Nat) (h : 10 ≤ n) :
    dec_digits n = dec_digits (n / 10) ++ [48 + n % 10] := by
  unfold dec_digits
  cases n with
  | zero => omega
  | succ m =>
    have h10 : ¬ (m + 1 < 10) := by omega
    simp only [dec_digits_fuel, h10, if_false]
    rw [dec_digits_fuel_indep m ((m + 1) / 10) ((m + 1) / 10) (by omega) (le_refl _)]

theorem zero_pad_four_digits (n : Nat) (h : n < 10000) :
    zero_pad 4 (dec_digits n) = four_digits n := by
  by_cases h1 : n < 10
  · rw [dec_digits_small n h1]
    simp only [zero_pad, four_digits]
    have a : n / 1000 % 10 = 0 := by omega
    have b : n / 100 % 10 = 0 := by omega
    have c : n / 10 % 10 = 0 := by omega
    have d : n % 10 = n := by omega
    simp [a, b, c, d, List.replicate]
  · rw [dec_digits_step n (by omega)]
    by_cases h2 : n / 10 < 10
    · rw [dec_digits_small _ h2]
      simp only [zero_pad, four_digits]
      have a : n / 1000 % 10 = 0 := by omega
      have b : n / 100 % 10 = 0 := by omega
      have c : n / 10 % 10 = n / 10 := by omega
      simp [a, b, c, List.replicate]
    · rw [dec_digits_step (n / 10) (by omega)]
      by_cases h3 : n / 10 / 10 < 10
      · rw [dec_digits_small _ h3]
        simp only [zero_pad, four_digits]
        have a : n / 1000 % 10 = 0 := by omega
        have b : n / 100 % 10 = n / 10 / 10 := by omega
        have c : n / 10 % 10 = n / 10 % 10 := rfl
        simp [a, b, List.replicate]
      · rw [dec_digits_step (n / 10 / 10) (by omega)]
        have h4 : n / 10 / 10 / 10 < 10 := by omega
        rw [dec_digits_small _ h4]
        simp only [zero_pad, four_digits]
        have a : n / 1000 % 10 = n / 10 / 10 / 10 := by omega
        have b : n / 100 % 10 = n / 10 / 10 % 10 := by omega
        simp [a, b, List.replicate]

theorem fmt_04d_of_nonneg (v : Int) (h0 : 0 ≤ v) (h1 : v ≤ 9999) :
    fmt_04d v = four_digits v.toNat := by
  unfold fmt_04d
  rw [if_neg (by omega)]
  exact zero_pad_four_digits _ (by omega)

theorem zero_pad_length (w : Nat) (ds : List Nat) : w ≤ (zero_pad w ds).length := by
  simp [zero_pad]; omega

theorem fmt_04d_length (v : Int) : 4 ≤ (fmt_04d v).length := by
  unfold fmt_04d
  split
  · have := zero_pad_length 3 (dec_digits v.natAbs)
    simp only [List.length_cons]; omega
  · exact zero_pad_length 4 _

theorem list_four (l : List Nat) (h : 4 ≤ l.length) :
    ∃ a b c d r, l = a :: b :: c :: d :: r := by
  match l, h with
  | a :: b :: c :: d :: r, _ => exact ⟨a, b, c, d, r, rfl⟩

theorem list_six (l : List Nat) (h : 6 ≤ l.length) :
    ∃ a b c d e f r, l = a :: b :: c :: d :: e :: f :: r := by
  match l, h with
  | a :: b :: c :: d :: e :: f :: r, _ => exact ⟨a, b, c, d, e, f, r, rfl⟩

/-- The frame handed to `uart_write`, field by field. -/
theorem send_data_eq (ack : Nat) (ui_id : Int) (resp : List Nat) (h : 6 ≤ resp.length) :
    (send_data ack ui_id resp).take PROTOCOL_TX_BYTES
      = [64, ack] ++ (fmt_04d ui_id).take 4 ++ resp.take 6 ++ [35] := by
  obtain ⟨a, b, c, d, r, hF⟩ := list_four _ (fmt_04d_length ui_id)
  obtain ⟨r0, r1, r2, r3, r4, r5, rr, hR⟩ := list_six _ h
  simp [send_data, memcpy, memset, strstore, PROTOCOL_TX_BYTES, hF, hR]

theorem memset_length (buf : List Nat) (c n : Nat) : n ≤ (memset buf c n).length := by
  simp [memset]

theorem ping_frame : (send_data 82 0 (bytes "000000" ++ [0])).take PROTOCOL_TX_BYTES
    = bytes "@R0000000000#" := by decide

/-- The path of `protocol_parse` for a request that is not a ping. -/
theorem protocol_parse_check (device_check : device_check_t) (puart : Option uart_t)
    (rx_msg resp0 str0 : List Nat) (hP : rx_msg.getD 1 0 ≠ 80) :
    protocol_parse device_check ⟨puart, rx_msg⟩ resp0 str0
      = Event.device_check rx_msg ::
          protocol_msg_tx puart
            (if (device_check rx_msg (memset resp0 0 SIZE_RESP_BYTES)).1 < 0 then 66
             else if (device_check rx_msg (memset resp0 0 SIZE_RESP_BYTES)).1 ≠ 0 then 79
             else 69)
            (int_ui_id ⟨puart, rx_msg⟩ str0)
            (store (memset resp0 0 SIZE_RESP_BYTES)
              (device_check rx_msg (memset resp0 0 SIZE_RESP_BYTES)).2) := by
  unfold protocol_parse
  rw [if_neg hP]
  by_cases h : (device_check rx_msg (memset resp0 0 SIZE_RESP_BYTES)).1 < 0
  · simp only [h, if_true]
  · simp only [h, if_false]

theorem atoi_four_digits (a b c d : Nat) (tail : List Nat)
    (ha : isdigit a = true) (hb : isdigit b = true) (hc : isdigit c = true)
    (hd : isdigit d = true) (ht : isdigit (tail.getD 0 0) = false) :
    atoi (a :: b :: c :: d :: tail)
      = (((a - 48) * 1000 + (b - 48) * 100 + (c - 48) * 10 + (d - 48) : Nat) : Int) := by
  have hsp : isspace a = false := by
    simp only [isdigit, isspace, Bool.and_eq_true, decide_eq_true_eq] at ha ⊢
    simp only [Bool.or_eq_false_iff, beq_eq_false_iff_ne, Bool.and_eq_false_iff,
      decide_eq_false_iff_not]
    omega
  have hdig : atoi_digits 0 (a :: b :: c :: d :: tail)
      = (a - 48) * 1000 + (b - 48) * 100 + (c - 48) * 10 + (d - 48) := by
    cases tail with
    | nil => simp only [atoi_digits, ha, hb, hc, hd, if_true]; omega
    | cons t ts =>
      simp only [List.getD_cons_zero] at ht
      simp only [atoi_digits, ha, hb, hc, hd, ht, if_true]
      simp; omega
  unfold atoi
  simp only [List.dropWhile, hsp]
  simp only [isdigit, Bool.and_eq_true, decide_eq_true_eq] at ha
  split
  · next r h => simp only [List.cons.injEq] at h; omega
  · next r h => simp only [List.cons.injEq] at h; omega
  · rw [hdig]

theorem fmt_04d_atoi_four_digits (a b c d : Nat) (tail : List Nat)
    (ha : isdigit a = true) (hb : isdigit b = true) (hc : isdigit c = true)
    (hd : isdigit d = true) (ht : isdigit (tail.getD 0 0) = false) :
    fmt_04d (atoi (a :: b :: c :: d :: tail)) = [a, b, c, d] := by
  rw [atoi_four_digits a b c d tail ha hb hc hd ht]
  simp only [isdigit, Bool.and_eq_true, decide_eq_true_eq] at ha hb hc hd
  rw [fmt_04d_of_nonneg _ (by omega) (by omega)]
  simp only [four_digits, Int.toNat_ofNat]
  have e1 : 48 + ((a - 48) * 1000 + (b - 48) * 100 + (c - 48) * 10 + (d - 48)) / 1000 % 10 = a := by
    omega
  have e2 : 48 + ((a - 48) * 1000 + (b - 48) * 100 + (c - 48) * 10 + (d - 48)) / 100 % 10 = b := by
    omega
  have e3 : 48 + ((a - 48) * 1000 + (b - 48) * 100 + (c - 48) * 10 + (d - 48)) / 10 % 10 = c := by
    omega
  have e4 : 48 + ((a - 48) * 1000 + (b - 48) * 100 + (c - 48) * 10 + (d - 48)) % 10 = d := by
    omega
  rw [e1, e2, e3, e4]

theorem int_ui_id_eq (puart : Option uart_t) (rx_msg str0 : List Nat) :
    int_ui_id ⟨puart, rx_msg⟩ str0 = atoi ((rx_msg.drop 2).take 4 ++ str0.drop 4) := by
  simp [int_ui_id, memcpy, memset, SIZE_UI_ID]

theorem store_length (buf out : List Nat) : buf.length ≤ (store buf out).length := by
  simp [store]; omega

theorem resp_length (resp0 out : List Nat) :
    6 ≤ (store (memset resp0 0 SIZE_RESP_BYTES) out).length :=
  le_trans (memset_length resp0 0 6) (store_length _ _)

theorem frame_length (ack : Nat) (ui_id : Int) (resp : List Nat) (h : 6 ≤ resp.length) :
    ((send_data ack ui_id resp).take PROTOCOL_TX_BYTES).length = 13 := by
  obtain ⟨a, b, c, d, r, hF⟩ := list_four _ (fmt_04d_length ui_id)
  obtain ⟨r0, r1, r2, r3, r4, r5, rr, hR⟩ := list_six _ h
  rw [send_data_eq ack ui_id resp h, hF, hR]
  simp

theorem frame_item_id (ack : Nat) (ui_id : Int) (resp : List Nat) (h : 6 ≤ resp.length) :
    (((send_data ack ui_id resp).take PROTOCOL_TX_BYTES).drop 2).take 4
      = (fmt_04d ui_id).take 4 := by
  obtain ⟨a, b, c, d, r, hF⟩ := list_four _ (fmt_04d_length ui_id)
  obtain ⟨r0, r1, r2, r3, r4, r5, rr, hR⟩ := list_six _ h
  rw [send_data_eq ack ui_id resp h, hF, hR]
  simp

theorem frame_result (ack : Nat) (ui_id : Int) (resp : List Nat) (h : 6 ≤ resp.length) :
    (((send_data ack ui_id resp).take PROTOCOL_TX_BYTES).drop 6).take 6 = resp.take 6 := by
  obtain ⟨a, b, c, d, r, hF⟩ := list_four _ (fmt_04d_length ui_id)
  obtain ⟨r0, r1, r2, r3, r4, r5, rr, hR⟩ := list_six _ h
  rw [send_data_eq ack ui_id resp h, hF, hR]
  simp

/-- When the byte of `str_ui_id` behind the copied field does not hold a
digit, the item id field of a request made of four digits is echoed. -/
theorem item_id_echo_of_terminated (device_check : device_check_t) (u : uart_t)
    (rx_msg resp0 str0 : List Nat) (a b c d : Nat) (hP : rx_msg.getD 1 0 ≠ 80)
    (hf : (rx_msg.drop 2).take 4 = [a, b, c, d])
    (ha : isdigit a = true) (hb : isdigit b = true) (hc : isdigit c = true)
    (hd : isdigit d = true) (ht : isdigit (str0.getD 4 0) = false) :
    ∃ frame : List Nat,
      protocol_parse device_check ⟨some u, rx_msg⟩ resp0 str0
        = [Event.device_check rx_msg, Event.uart_write frame, Event.uart_write [10],
           Event.uart_write [13]] ∧
      (frame.drop 2).take 4 = (rx_msg.drop 2).take 4 := by
  rw [protocol_parse_check device_check (some u) rx_msg resp0 str0 hP]
  refine ⟨_, rfl, ?_⟩
  rw [frame_item_id _ _ _ (resp_length _ _), int_ui_id_eq, hf]
  have ht' : isdigit ((str0.drop 4).getD 0 0) = false := by
    simpa using ht
  have := fmt_04d_atoi_four_digits a b c d (str0.drop 4) ha hb hc hd ht'
  simp only [List.cons_append, List.nil_append]
  rw [this]
  rfl

theorem difftime_eq (t now : timeval) :
    ((now.tv_sec - t.tv_sec : Int) : ℚ) +
      (((now.tv_usec : ℚ) - ((t.tv_usec : ℚ) + ALIVE_DISPLAY_INTERVAL * 1000)) / 1000000)
    = ((elapsed_us t now - 1000000 : Int) : ℚ) / 1000000 := by
  simp only [elapsed_us, ALIVE_DISPLAY_INTERVAL]
  push_cast
  ring

/-- The heartbeat check fires exactly when more than 1000 ms have passed. -/
theorem run_interval_check_fires (t now : timeval) :
    run_interval_check t ALIVE_DISPLAY_INTERVAL now
      = if 1000000 < elapsed_us t now then (now, 1) else (t, 0) := by
  have hne : ALIVE_DISPLAY_INTERVAL ≠ 0 := by simp [ALIVE_DISPLAY_INTERVAL]
  unfold run_interval_check
  rw [if_pos hne]
  simp only [difftime_eq]
  have hiff : (((elapsed_us t now - 1000000 : Int) : ℚ) / 1000000 > 0)
      ↔ 1000000 < elapsed_us t now := by
    rw [gt_iff_lt, div_pos_iff_of_pos_right (by norm_num)]
    rw [Int.cast_pos]
    omega
  by_cases h : 1000000 < elapsed_us t now
  · rw [if_pos (hiff.mpr h), if_pos h]
  · rw [if_neg (fun h' => h (hiff.mp h')), if_neg h]

/-- The first 6 bytes of the result buffer after a string was stored in the
cleared buffer. -/
theorem resp_of_string (resp0 s : List Nat) :
    (store (memset resp0 0 SIZE_RESP_BYTES) (s ++ [0])).take 6
      = if 6 ≤ s.length then s.take 6 else s ++ List.replicate (6 - s.length) 0 := by
  rcases s with _ | ⟨a, _ | ⟨b, _ | ⟨c, _ | ⟨d, _ | ⟨e, _ | ⟨f, r⟩⟩⟩⟩⟩⟩ <;>
    simp [store, memset, SIZE_RESP_BYTES, List.replicate]

/-- The calls one call of `client_alive_display` makes. -/
theorem alive_events (s : alive_t) (now : timeval) :
    (client_alive_display s now).2
      = if (run_interval_check s.i_time ALIVE_DISPLAY_INTERVAL now).2 ≠ 0 then
          (if s.onoff ≠ 0 then [Event.ui_set_ritem ALIVE_DISPLAY_UI_ID Color.COLOR_GREEN]
           else [Event.ui_set_ritem ALIVE_DISPLAY_UI_ID Color.bc, Event.ui_update])
        else [] := by
  unfold client_alive_display
  by_cases h1 : (run_interval_check s.i_time ALIVE_DISPLAY_INTERVAL now).2 ≠ 0 <;>
    by_cases h2 : s.onoff ≠ 0 <;> simp [h1, h2]

theorem alive_events_ui (s : alive_t) (now : timeval) :
    ∀ e ∈ (client_alive_display s now).2,
      e = Event.ui_update ∨ ∃ id rc, e = Event.ui_set_ritem id rc := by
  intro e he
  rw [alive_events] at he
  split_ifs at he <;> simp at he
  · exact Or.inr ⟨_, _, he⟩
  · rcases he with h | h
    · exact Or.inr ⟨_, _, h⟩
    · exact Or.inl h

theorem alive_run_events_ui (nows : List timeval) : ∀ s : alive_t,
    ∀ e ∈ ((alive_run s nows).map (fun c => c.events)).flatten,
      e = Event.ui_update ∨ ∃ id rc, e = Event.ui_set_ritem id rc := by
  induction nows with
  | nil => intro s e he; simp [alive_run] at he
  | cons now rest ih =>
    intro s e he
    simp only [alive_run, List.map_cons, List.flatten_cons, List.mem_append] at he
    rcases he with h | h
    · exact alive_events_ui s now e h
    · exact ih _ e h

theorem main_loop_body_null (device_check : device_check_t)
    (ptc_event : uart_t → Nat → uart_t) (st : loop_st) (i : loop_in)
    (h : st.client.puart = none) :
    main_loop_body device_check ptc_event st i
      = (⟨(client_alive_display st.alive i.now).1, st.client⟩,
         (client_alive_display st.alive i.now).2) := by
  obtain ⟨alive, ⟨puart, rx_msg⟩⟩ := st
  simp only at h
  subst h
  simp [main_loop_body, protocol_msg_rx]

theorem main_loop_null (device_check : device_check_t)
    (ptc_event : uart_t → Nat → uart_t) (inputs : List loop_in) :
    ∀ st : loop_st, st.client.puart = none →
      (main_loop device_check ptc_event st inputs).1.client = st.client ∧
      (main_loop device_check ptc_event st inputs).2
        = ((alive_run st.alive (inputs.map (fun i => i.now))).map
            (fun c => c.events)).flatten := by
  induction inputs with
  | nil => intro st _; simp [main_loop, alive_run]
  | cons i rest ih =>
    intro st h
    simp only [main_loop, main_loop_body_null device_check ptc_event st i h, List.map_cons,
      alive_run, List.flatten_cons]
    have := ih ⟨(client_alive_display st.alive i.now).1, st.client⟩ h
    exact ⟨this.1, by rw [this.2]⟩

theorem zero_pad_two_digits (n : Nat) (h : n < 100) :
    zero_pad 2 (dec_digits n) = two_digits n := by
  by_cases h1 : n < 10
  · rw [dec_digits_small n h1]
    simp only [zero_pad, two_digits]
    have a : n / 10 % 10 = 0 := by omega
    have b : n % 10 = n := by omega
    simp [a, b, List.replicate]
  · rw [dec_digits_step n (by omega), dec_digits_small _ (by omega)]
    simp only [zero_pad, two_digits]
    have a : n / 10 % 10 = n / 10 := by omega
    simp [a, List.replicate]

theorem zero_pad_three_digits (n : Nat) (h : n < 1000) :
    zero_pad 3 (dec_digits n) = three_digits n := by
  by_cases h1 : n < 10
  · rw [dec_digits_small n h1]
    simp only [zero_pad, three_digits]
    have a : n / 100 % 10 = 0 := by omega
    have b : n / 10 % 10 = 0 := by omega
    have c : n % 10 = n := by omega
    simp [a, b, c, List.replicate]
  · rw [dec_digits_step n (by omega)]
    by_cases h2 : n / 10 < 10
    · rw [dec_digits_small _ h2]
      simp only [zero_pad, three_digits]
      have a : n / 100 % 10 = 0 := by omega
      have b : n / 10 % 10 = n / 10 := by omega
      simp [a, b, List.replicate]
    · rw [dec_digits_step (n / 10) (by omega), dec_digits_small _ (by omega)]
      simp only [zero_pad, three_digits]
      have a : n / 100 % 10 = n / 10 / 10 := by omega
      simp [a, List.replicate]

theorem fmt_0d_four (v : Int) : fmt_0d 4 v = fmt_04d v := rfl

/-- The request of `client_init_data` for an item in range, byte by byte. -/
theorem init_msg_eq (msg0 : List Nat) (it : ui_item_t)
    (hu0 : 0 ≤ it.ui_id) (hu1 : it.ui_id ≤ 9999) (hg0 : 0 ≤ it.grp_id) (hg1 : it.grp_id ≤ 99)
    (hd0 : 0 ≤ it.dev_id) (hd1 : it.dev_id ≤ 999) :
    init_msg msg0 it
      = [64, 67] ++ four_digits it.ui_id.toNat ++ two_digits it.grp_id.toNat
          ++ three_digits it.dev_id.toNat ++ [73, 48, 48, 49, 48, 35, 0]
          ++ (memset msg0 0 PROTOCOL_RX_BYTES).drop 18 := by
  have h4 : fmt_0d 4 it.ui_id = four_digits it.ui_id.toNat := by
    rw [fmt_0d_four]; exact fmt_04d_of_nonneg _ hu0 hu1
  have h2 : fmt_0d 2 it.grp_id = two_digits it.grp_id.toNat := by
    unfold fmt_0d
    rw [if_neg (by omega)]
    exact zero_pad_two_digits _ (by omega)
  have h3 : fmt_0d 3 it.dev_id = three_digits it.dev_id.toNat := by
    unfold fmt_0d
    rw [if_neg (by omega)]
    exact zero_pad_three_digits _ (by omega)
  unfold init_msg
  rw [h4, h2, h3]
  simp [strstore, bytes, four_digits, two_digits, three_digits]

/-- When the byte of `str_ui_id` behind the copied field does not hold a
digit, `protocol_parse` reads the item id of a request of `client_init_data`
back. -/
theorem init_item_id_of_terminated (puart : Option uart_t) (msg0 str0 : List Nat)
    (it : ui_item_t)
    (hu0 : 0 ≤ it.ui_id) (hu1 : it.ui_id ≤ 9999) (hg0 : 0 ≤ it.grp_id) (hg1 : it.grp_id ≤ 99)
    (hd0 : 0 ≤ it.dev_id) (hd1 : it.dev_id ≤ 999)
    (ht : isdigit (str0.getD 4 0) = false) :
    int_ui_id ⟨puart, init_msg msg0 it⟩ str0 = it.ui_id := by
  have ht' : isdigit ((str0.drop 4).getD 0 0) = false := by
    simpa using ht
  rw [int_ui_id_eq, init_msg_eq msg0 it hu0 hu1 hg0 hg1 hd0 hd1]
  have hf : (List.drop 2 ([64, 67] ++ four_digits it.ui_id.toNat ++ two_digits it.grp_id.toNat
      ++ three_digits it.dev_id.toNat ++ [73, 48, 48, 49, 48, 35, 0]
      ++ (memset msg0 0 PROTOCOL_RX_BYTES).drop 18)).take 4 = four_digits it.ui_id.toNat := by
    simp [four_digits]
  rw [hf]
  simp only [four_digits, List.cons_append, List.nil_append]
  rw [atoi_four_digits _ _ _ _ _ (by simp [isdigit]; omega) (by simp [isdigit]; omega)
    (by simp [isdigit]; omega) (by simp [isdigit]; omega) ht']
  omega

theorem rx_copy_getD (var : ptc_var_t) (rx_msg : List Nat) (i : Nat)
    (hi : i < PROTOCOL_RX_BYTES) :
    (rx_copy var rx_msg).getD i 0 = var.buf.getD ((var.p_sp + i) % var.size) 0 := by
  unfold rx_copy
  rw [List.getD_append _ _ _ _ (by simpa using hi)]
  rw [List.getD_eq_getElem?_getD, List.getElem?_map, List.getElem?_range hi]
  simp

theorem rx_copy_drop (var : ptc_var_t) (rx_msg : List Nat) :
    (rx_copy var rx_msg).drop PROTOCOL_RX_BYTES = rx_msg.drop PROTOCOL_RX_BYTES := by
  unfold rx_copy
  rw [List.drop_left' (by simp)]

/-- The loop over the groups finds none with its pass flag set. -/
theorem rx_scan_none (u : uart_t) (rx_msg : List Nat) (n : Nat) : ∀ p_cnt : Nat,
    (∀ j, p_cnt ≤ j → j < p_cnt + n → ∀ g, u.p[j]? = some g → g.var.pass = 0) →
    rx_scan u rx_msg n p_cnt = (u, rx_msg, 0) := by
  induction n with
  | zero => intro p_cnt _; rfl
  | succ n ih =>
    intro p_cnt h
    have hrest := ih (p_cnt + 1) (fun j h1 h2 => h j (by omega) (by omega))
    rw [rx_scan]
    cases hg : u.p[p_cnt]? with
    | none => simpa using hrest
    | some g =>
      have h0 := h p_cnt (le_refl _) (by omega) g hg
      simp only [h0, ne_eq, not_true_eq_false, if_false]
      exact hrest

/-- The loop over the groups stops at the first group with its pass flag
set. -/
theorem rx_scan_hit (u : uart_t) (rx_msg : List Nat) (k : Nat) (g : ptc_grp_t)
    (hg : u.p[k]? = some g) (hpass : g.var.pass ≠ 0) (n : Nat) : ∀ p_cnt : Nat,
    p_cnt ≤ k → k < p_cnt + n →
    (∀ j, p_cnt ≤ j → j < k → ∀ gj, u.p[j]? = some gj → gj.var.pass = 0) →
    rx_scan u rx_msg n p_cnt
      = (⟨u.pcnt, u.p.set k ⟨{ g.var with pass := 0, open_ := 1 }⟩⟩,
         rx_copy g.var rx_msg, 1) := by
  induction n with
  | zero => intro p_cnt h1 h2; omega
  | succ n ih =>
    intro p_cnt h1 h2 hlow
    rw [rx_scan]
    by_cases hk : p_cnt = k
    · subst hk
      simp only [hg, hpass, ne_eq, not_false_eq_true, if_true]
    · have hrest := ih (p_cnt + 1) (by omega) (by omega)
        (fun j h3 h4 => hlow j (by omega) h4)
      cases hgj : u.p[p_cnt]? with
      | none => simpa using hrest
      | some gj =>
        have h0 := hlow p_cnt (le_refl _) (by omega) gj hgj
        simp only [h0, ne_eq, not_true_eq_false, if_false]
        exact hrest

theorem protocol_check_one (var : ptc_var_t) (h : protocol_check var = 1) :
    var.buf.getD (var.p_sp % var.size) 0 = 64 ∧
    var.buf.getD ((var.p_sp + var.size - 1) % var.size) 0 = 35 := by
  unfold protocol_check at h
  by_cases h1 : var.buf.getD ((var.p_sp + var.size - 1) % var.size) 0 = 35
  · by_cases h2 : var.buf.getD (var.p_sp % var.size) 0 = 64
    · exact ⟨h2, h1⟩
    · rw [if_neg (not_not.mpr h1), if_pos h2] at h
      omega
  · rw [if_pos h1] at h
    omega

theorem protocol_catch_one (var : ptc_var_t) (h : protocol_catch var = 1) :
    var.buf.getD ((var.p_sp + 1) % var.size) 0 = 67 ∨
    var.buf.getD ((var.p_sp + 1) % var.size) 0 = 80 := by
  unfold protocol_catch at h
  by_cases h1 : var.buf.getD ((var.p_sp + 1) % var.size) 0 = 67 ∨
      var.buf.getD ((var.p_sp + 1) % var.size) 0 = 80
  · exact h1
  · simp only [h1, if_false] at h
    omega

/-- The phase after a call of `client_alive_display`. -/
theorem alive_onoff (s : alive_t) (now : timeval) :
    (client_alive_display s now).1.onoff
      = if (run_interval_check s.i_time ALIVE_DISPLAY_INTERVAL now).2 ≠ 0 then
          (if s.onoff ≠ 0 then 0 else 1)
        else s.onoff := by
  unfold client_alive_display
  by_cases h1 : (run_interval_check s.i_time ALIVE_DISPLAY_INTERVAL now).2 ≠ 0 <;>
    simp [h1]

theorem alive_run_quiet (nows : List timeval) : ∀ s : alive_t,
    ∀ c ∈ alive_run s nows, c.fired = 0 → c.events = [] := by
  induction nows with
  | nil => intro s c hc; simp [alive_run] at hc
  | cons now rest ih =>
    intro s c hc h0
    simp only [alive_run, List.mem_cons] at hc
    rcases hc with h | h
    · subst h
      simp only at h0 ⊢
      rw [alive_events, h0]
      simp
    · exact ih _ c h h0

/-- The phase and the refresh at the firings, from a phase `b`. -/
theorem alive_run_firings (nows : List timeval) : ∀ (s : alive_t) (b : Nat),
    s.onoff = (b : Int) → b ≤ 1 → ∀ (j : Nat) (c : alive_call),
    ((alive_run s nows).filter (fun c => decide (c.fired ≠ 0)))[j]? = some c →
      c.after.onoff = (if (j + b) % 2 = 0 then 1 else 0) ∧
      (Event.ui_update ∈ c.events ↔ (j + b) % 2 = 0) := by
  induction nows with
  | nil => intro s b _ _ j c h; simp [alive_run] at h
  | cons now rest ih =>
    intro s b hb hb1 j c h
    simp only [alive_run, List.filter_cons] at h
    by_cases hf : (run_interval_check s.i_time ALIVE_DISPLAY_INTERVAL now).2 ≠ 0
    · rw [if_pos (decide_eq_true hf)] at h
      have hon : (client_alive_display s now).1.onoff = if s.onoff ≠ 0 then 0 else 1 := by
        rw [alive_onoff, if_pos hf]
      have hev := alive_events s now
      rw [if_pos hf] at hev
      cases j with
      | zero =>
        simp only [List.getElem?_cons_zero, Option.some.injEq] at h
        subst h
        simp only [hon, hev]
        have hb' : b = 0 ∨ b = 1 := by omega
        rcases hb' with h0 | h1
        · subst h0; simp [hb]
        · subst h1; simp [hb]
      | succ j =>
        simp only [List.getElem?_cons_succ] at h
        have hb' : b = 0 ∨ b = 1 := by omega
        rcases hb' with h0 | h1
        · subst h0
          have := ih (client_alive_display s now).1 1 (by rw [hon, hb]; simp) (by omega) j c h
          have e : (j + 1 + 0) % 2 = (j + 1) % 2 := by omega
          rw [e]
          exact this
        · subst h1
          have := ih (client_alive_display s now).1 0 (by rw [hon, hb]; simp) (by omega) j c h
          have e : (j + 1 + 1) % 2 = (j + 0) % 2 := by omega
          rw [e]
          exact this
    · rw [if_neg (fun hd => hf (of_decide_eq_true hd))] at h
      have hon : (client_alive_display s now).1.onoff = s.onoff := by
        rw [alive_onoff, if_neg hf]
      exact ih (client_alive_display s now).1 b (by rw [hon, hb]) hb1 j c h

/-- The digit loop of `atoi` reads at most the digits before the first byte
that is not one. -/
theorem atoi_digits_lt (n : Nat) : ∀ (l : List Nat) (acc : Nat),
    isdigit (l.getD n 0) = false → atoi_digits acc l < (acc + 1) * 10 ^ n := by
  induction n with
  | zero =>
    intro l acc h
    cases l with
    | nil => simp [atoi_digits]
    | cons c cs =>
      simp only [List.getD_cons_zero] at h
      simp [atoi_digits, h]
  | succ n ih =>
    intro l acc h
    cases l with
    | nil =>
      simp only [atoi_digits]
      have : 0 < 10 ^ (n + 1) := by positivity
      nlinarith
    | cons c cs =>
      simp only [List.getD_cons_succ] at h
      simp only [atoi_digits]
      by_cases hc : isdigit c = true
      · rw [if_pos hc]
        have h1 := ih cs (acc * 10 + (c - 48)) h
        have hc' : c - 48 ≤ 9 := by
          simp only [isdigit, Bool.and_eq_true, decide_eq_true_eq] at hc
          omega
        have h2 : (acc * 10 + (c - 48) + 1) * 10 ^ n ≤ (acc + 1) * 10 ^ (n + 1) := by
          rw [pow_succ]
          have : acc * 10 + (c - 48) + 1 ≤ (acc + 1) * 10 := by omega
          calc (acc * 10 + (c - 48) + 1) * 10 ^ n ≤ ((acc + 1) * 10) * 10 ^ n :=
                Nat.mul_le_mul_right _ this
            _ = (acc + 1) * (10 ^ n * 10) := by ring
        omega
      · rw [if_neg hc]
        have : 0 < 10 ^ (n + 1) := by positivity
        nlinarith

theorem isspace_zero : isspace 0 = false := by decide

theorem isdigit_zero : isdigit 0 = false := by decide

/-- What `atoi` returns for a string whose byte `n` is the NUL. -/
theorem atoi_bounds (s : List Nat) : ∀ n : Nat, s.getD n 0 = 0 →
    -((10 ^ (n - 1) : Nat) : Int) < atoi s ∧ atoi s < ((10 ^ n : Nat) : Int) := by
  induction s with
  | nil =>
    intro n _
    have h1 : 0 < 10 ^ (n - 1) := by positivity
    have h2 : 0 < 10 ^ n := by positivity
    simp only [atoi, List.dropWhile, atoi_digits]
    omega
  | cons c cs ih =>
    intro n h
    by_cases hsp : isspace c = true
    · have hat : atoi (c :: cs) = atoi cs := by
        simp only [atoi, List.dropWhile, hsp]
      rw [hat]
      cases n with
      | zero =>
        simp only [List.getD_cons_zero] at h
        rw [h] at hsp
        simp [isspace_zero] at hsp
      | succ m =>
        simp only [List.getD_cons_succ] at h
        have := ih m h
        have hp : 10 ^ (m - 1) ≤ 10 ^ m := Nat.pow_le_pow_right (by omega) (by omega)
        have hq : 10 ^ m ≤ 10 ^ (m + 1) := Nat.pow_le_pow_right (by omega) (by omega)
        simp only [Nat.add_sub_cancel]
        omega
    · have hsp' : isspace c = false := by simpa using hsp
      have hdw : (c :: cs).dropWhile isspace = c :: cs := by
        simp only [List.dropWhile, hsp']
      have hall := atoi_digits_lt n (c :: cs) 0 (by rw [h]; exact isdigit_zero)
      have h2 : 0 < 10 ^ (n - 1) := by positivity
      unfold atoi
      rw [hdw]
      split
      · next r heq =>
        simp only [List.cons.injEq] at heq
        obtain ⟨hc, hr⟩ := heq
        subst hr
        cases n with
        | zero =>
          simp only [List.getD_cons_zero] at h
          omega
        | succ m =>
          simp only [List.getD_cons_succ] at h
          have := atoi_digits_lt m cs 0 (by rw [h]; exact isdigit_zero)
          have hq : 10 ^ m ≤ 10 ^ (m + 1) := Nat.pow_le_pow_right (by omega) (by omega)
          simp only [Nat.add_sub_cancel]
          omega
      · next r heq =>
        simp only [List.cons.injEq] at heq
        obtain ⟨hc, hr⟩ := heq
        subst hr
        cases n with
        | zero =>
          simp only [List.getD_cons_zero] at h
          omega
        | succ m =>
          simp only [List.getD_cons_succ] at h
          have := atoi_digits_lt m cs 0 (by rw [h]; exact isdigit_zero)
          have hq : 10 ^ m ≤ 10 ^ (m + 1) := Nat.pow_le_pow_right (by omega) (by omega)
          omega
      · omega

/-- The decimal digits of a value of at least `10 ^ k` are more than `k`. -/
theorem dec_digits_length_ge (k : Nat) : ∀ n : Nat, 10 ^ k ≤ n →
    k + 1 ≤ (dec_digits n).length := by
  induction k with
  | zero =>
    intro n _
    by_cases h : n < 10
    · rw [dec_digits_small n h]; simp
    · rw [dec_digits_step n (by omega)]; simp
  | succ k ih =>
    intro n h
    have h10 : 10 ≤ n := by
      have : 1 ≤ 10 ^ k := Nat.one_le_pow _ _ (by omega)
      rw [pow_succ] at h
      omega
    rw [dec_digits_step n h10]
    have := ih (n / 10) (by
      rw [pow_succ] at h
      exact (Nat.le_div_iff_mul_le (by omega)).mpr h)
    simp only [List.length_append, List.length_singleton]
    omega

theorem zero_pad_length_ge (w : Nat) (ds : List Nat) : ds.length ≤ (zero_pad w ds).length := by
  simp [zero_pad]

/-- The `%04d` rendering of a value from -999 to 9999 has 4 characters. -/
theorem fmt_04d_length_four (v : Int) (h0 : -999 ≤ v) (h1 : v ≤ 9999) :
    (fmt_04d v).length = 4 := by
  by_cases hv : 0 ≤ v
  · rw [fmt_04d_of_nonneg v hv h1]; simp [four_digits]
  · unfold fmt_04d
    rw [if_pos (by omega), zero_pad_three_digits _ (by omega)]
    simp [three_digits]

/-- The `%04d` rendering of a value outside -999 to 9999 has more than 4
characters. -/
theorem fmt_04d_length_long (w : Int) (h : 10000 ≤ w ∨ w ≤ -1000) :
    4 < (fmt_04d w).length := by
  unfold fmt_04d
  rcases h with h | h
  · rw [if_neg (by omega)]
    have h1 := dec_digits_length_ge 4 w.toNat (by omega)
    have h2 := zero_pad_length_ge 4 (dec_digits w.toNat)
    omega
  · rw [if_pos (by omega)]
    have h1 := dec_digits_length_ge 3 w.natAbs (by omega)
    have h2 := zero_pad_length_ge 3 (dec_digits w.natAbs)
    simp only [List.length_cons]
    omega

/-- The item id `protocol_parse` reads when the byte of `str_ui_id` behind
the bytes copied holds the NUL: at most 4 digits, or a sign and 3 digits. -/
theorem int_ui_id_range (puart : Option uart_t) (rx_msg str0 : List Nat)
    (hnul : str0.getD 4 0 = 0) :
    -999 ≤ int_ui_id ⟨puart, rx_msg⟩ str0 ∧ int_ui_id ⟨puart, rx_msg⟩ str0 ≤ 9999 := by
  have hfl : ((rx_msg.drop 2).take 4).length ≤ 4 := by
    simp only [List.length_take, List.length_drop]
    omega
  have hs : ((rx_msg.drop 2).take 4 ++ str0.drop 4).getD ((rx_msg.drop 2).take 4).length 0
      = 0 := by
    rw [List.getD_append_right _ _ _ _ (le_refl _)]
    simpa using hnul
  have hb := atoi_bounds _ _ hs
  rw [← int_ui_id_eq puart] at hb
  have h1 : 10 ^ (((rx_msg.drop 2).take 4).length - 1) ≤ 10 ^ 3 :=
    Nat.pow_le_pow_right (by omega) (by omega)
  have h2 : 10 ^ ((rx_msg.drop 2).take 4).length ≤ 10 ^ 4 :=
    Nat.pow_le_pow_right (by omega) hfl
  have h3 : (10 : Nat) ^ 3 = 1000 := by norm_num
  have h4 : (10 : Nat) ^ 4 = 10000 := by norm_num
  omega

theorem atoi_digits_append_stop (f t : List Nat) (ht : isdigit (t.getD 0 0) = false) :
    ∀ acc : Nat, atoi_digits acc (f ++ t) = atoi_digits acc f := by
  induction f with
  | nil =>
    intro acc
    cases t with
    | nil => rfl
    | cons c cs =>
      simp only [List.getD_cons_zero] at ht
      simp [atoi_digits, ht]
  | cons c cs ih =>
    intro acc
    show atoi_digits acc (c :: (cs ++ t)) = atoi_digits acc (c :: cs)
    simp only [atoi_digits]
    by_cases hc : isdigit c = true
    · rw [if_pos hc, if_pos hc, ih]
    · rw [if_neg hc, if_neg hc]

/-- The reading of `atoi` ends at a NUL: what follows it does not count. -/
theorem atoi_append_nul (f t : List Nat) (ht : t.getD 0 0 = 0) :
    atoi (f ++ t) = atoi f := by
  have htd : isdigit (t.getD 0 0) = false := by rw [ht]; exact isdigit_zero
  induction f with
  | nil =>
    cases t with
    | nil => rfl
    | cons c cs =>
      simp only [List.getD_cons_zero] at ht
      subst ht
      simp [atoi, List.dropWhile, isspace_zero, atoi_digits, isdigit_zero]
  | cons c cs ih =>
    by_cases hsp : isspace c = true
    · have h1 : atoi (c :: cs ++ t) = atoi (cs ++ t) := by
        show atoi (c :: (cs ++ t)) = atoi (cs ++ t)
        simp only [atoi, List.dropWhile, hsp]
      have h2 : atoi (c :: cs) = atoi cs := by
        simp only [atoi, List.dropWhile, hsp]
      rw [h1, h2, ih]
    · have hsp' : isspace c = false := by simpa using hsp
      have hd1 : (c :: cs ++ t).dropWhile isspace = c :: (cs ++ t) := by
        show (c :: (cs ++ t)).dropWhile isspace = c :: (cs ++ t)
        simp only [List.dropWhile, hsp']
      have hd2 : (c :: cs).dropWhile isspace = c :: cs := by
        simp only [List.dropWhile, hsp']
      have e1 := atoi_digits_append_stop cs t htd 0
      have e2 : atoi_digits 0 (c :: (cs ++ t)) = atoi_digits 0 (c :: cs) :=
        atoi_digits_append_stop (c :: cs) t htd 0
      unfold atoi
      rw [hd1, hd2]
      by_cases h45 : c = 45
      · subst h45; simp only [e1]
      · by_cases h43 : c = 43
        · subst h43; simp only [e1]
        · have m1 : (match c :: (cs ++ t) with
              | 45 :: r => - (atoi_digits 0 r : Int)
              | 43 :: r => (atoi_digits 0 r : Int)
              | r => (atoi_digits 0 r : Int)) = (atoi_digits 0 (c :: (cs ++ t)) : Int) := by
            split
            · next r heq => simp only [List.cons.injEq] at heq; omega
            · next r heq => simp only [List.cons.injEq] at heq; omega
            · rfl
          have m2 : (match c :: cs with
              | 45 :: r => - (atoi_digits 0 r : Int)
              | 43 :: r => (atoi_digits 0 r : Int)
              | r => (atoi_digits 0 r : Int)) = (atoi_digits 0 (c :: cs) : Int) := by
            split
            · next r heq => simp only [List.cons.injEq] at heq; omega
            · next r heq => simp only [List.cons.injEq] at heq; omega
            · rfl
          rw [m1, m2, e2]

/-- With the NUL behind the bytes copied, the item id of `protocol_parse` is
what `atoi` reads from the item id field alone. -/
theorem int_ui_id_of_nul (puart : Option uart_t) (rx_msg str0 : List Nat)
    (hnul : str0.getD 4 0 = 0) :
    int_ui_id ⟨puart, rx_msg⟩ str0 = atoi ((rx_msg.drop 2).take 4) := by
  rw [int_ui_id_eq]
  exact atoi_append_nul _ _ (by simpa using hnul)

/-- With the NUL behind the 4 bytes copied, the value `atoi` returns in
`protocol_parse` is from -999 to 9999 and its `%04d` rendering has exactly 4
characters: with its NUL it fills the 5 bytes of `str_ui_id` in
`protocol_msg_tx` and no more, and the item id field of the response is that
rendering.  For a value of 10000 or more, or of -1000 or less, the rendering
has more than 4 characters. -/
theorem item_id_fits_of_nul (device_check : device_check_t) (u : uart_t)
    (rx_msg resp0 str0 : List Nat) (hP : rx_msg.getD 1 0 ≠ 80) (h6 : 6 ≤ rx_msg.length)
    (hnul : str0.getD 4 0 = 0) :
    -999 ≤ int_ui_id ⟨some u, rx_msg⟩ str0 ∧ int_ui_id ⟨some u, rx_msg⟩ str0 ≤ 9999 ∧
    (fmt_04d (int_ui_id ⟨some u, rx_msg⟩ str0)).length = 4 ∧
    (strstore (memset (List.replicate 5 0) 0 5)
      (fmt_04d (int_ui_id ⟨some u, rx_msg⟩ str0))).length = 5 ∧
    (∃ frame : List Nat,
      protocol_parse device_check ⟨some u, rx_msg⟩ resp0 str0
        = [Event.device_check rx_msg, Event.uart_write frame, Event.uart_write [10],
           Event.uart_write [13]] ∧
      (frame.drop 2).take 4 = fmt_04d (int_ui_id ⟨some u, rx_msg⟩ str0)) ∧
    (∀ w : Int, 10000 ≤ w ∨ w ≤ -1000 → 4 < (fmt_04d w).length) := by
  have hfl : ((rx_msg.drop 2).take 4).length = 4 := by
    simp only [List.length_take, List.length_drop]
    omega
  have hs : ((rx_msg.drop 2).take 4 ++ str0.drop 4).getD 4 0 = 0 := by
    rw [List.getD_append_right _ _ _ _ (by omega), hfl]
    simpa using hnul
  have hb := atoi_bounds _ 4 hs
  rw [← int_ui_id_eq (some u)] at hb
  have hlo : -999 ≤ int_ui_id ⟨some u, rx_msg⟩ str0 := by
    have := hb.1
    norm_num at this
    omega
  have hhi : int_ui_id ⟨some u, rx_msg⟩ str0 ≤ 9999 := by
    have := hb.2
    norm_num at this
    omega
  have hlen := fmt_04d_length_four _ hlo hhi
  refine ⟨hlo, hhi, hlen, ?_, ?_, fmt_04d_length_long⟩
  · simp [strstore, memset, hlen]
  · rw [protocol_parse_check device_check (some u) rx_msg resp0 str0 hP]
    refine ⟨_, rfl, ?_⟩
    rw [frame_item_id _ _ _ (resp_length _ _)]
    exact List.take_of_length_le (by omega)

/-! ## The request path -/

/-- C1: a request whose command byte is `P` is answered, whatever its other
bytes are, by `protocol_msg_tx` with ack `R`, item id 0 and result "000000";
with a uart the frame written is `@R0000000000#` (followed by the line feed
and carriage return of `protocol_msg_tx`), and `device_check` is not called. -/
theorem C1_ping_ready (device_check : device_check_t) (puart : Option uart_t)
    (u : uart_t) (rx_msg resp0 str0 : List Nat) (hP : rx_msg.getD 1 0 = 80) :
    protocol_parse device_check ⟨puart, rx_msg⟩ resp0 str0
        = protocol_msg_tx puart 82 0 (bytes "000000" ++ [0]) ∧
    protocol_parse device_check ⟨some u, rx_msg⟩ resp0 str0
        = [Event.uart_write (bytes "@R0000000000#"), Event.uart_write [10],
           Event.uart_write [13]] ∧
    (bytes "@R0000000000#").length = 13 ∧
    ∀ m, Event.device_check m ∉ protocol_parse device_check ⟨puart, rx_msg⟩ resp0 str0 := by
  have h1 : ∀ q : Option uart_t, protocol_parse device_check ⟨q, rx_msg⟩ resp0 str0
      = protocol_msg_tx q 82 0 (bytes "000000" ++ [0]) := by
    intro q
    unfold protocol_parse
    rw [if_pos hP]
  refine ⟨h1 puart, ?_, by decide, ?_⟩
  · rw [h1 (some u)]
    simp only [protocol_msg_tx, ping_frame]
  · intro m
    rw [h1 puart]
    cases puart <;> simp [protocol_msg_tx]

/-- Witness of C1 on the request `@P0005000500I0010#`. -/
theorem C1_ping_ready_witness :
    protocol_parse (fun _ _ => (1, bytes "1" ++ [0]))
        ⟨some ⟨0, []⟩, bytes "@P0005000500I0010#" ++ [0]⟩ [1, 2, 3, 4, 5, 6, 7] [9, 9, 9, 9, 9]
      = [Event.uart_write (bytes "@R0000000000#"), Event.uart_write [10],
         Event.uart_write [13]] :=
  (C1_ping_ready (fun _ _ => (1, bytes "1" ++ [0])) (some ⟨0, []⟩) ⟨0, []⟩
    (bytes "@P0005000500I0010#" ++ [0]) [1, 2, 3, 4, 5, 6, 7] [9, 9, 9, 9, 9] (by decide)).2.1

/-- C3: for an item id from 0 to 9999 and a result buffer of at least 6
bytes, the frame `protocol_msg_tx` writes to a uart has 13 bytes: `@`, the
ack, the item id as 4 zero padded decimal digits, the first 6 bytes of the
result buffer, `#`. -/
theorem C3_frame_layout (u : uart_t) (ack : Nat) (ui_id : Int) (resp : List Nat)
    (h0 : 0 ≤ ui_id) (h1 : ui_id ≤ 9999) (h6 : 6 ≤ resp.length) :
    ∃ frame : List Nat,
      protocol_msg_tx (some u) ack ui_id resp
        = [Event.uart_write frame, Event.uart_write [10], Event.uart_write [13]] ∧
      frame.length = 13 ∧
      frame = [64, ack] ++ four_digits ui_id.toNat ++ resp.take 6 ++ [35] ∧
      frame.getD 0 0 = 64 ∧ frame.getD 1 0 = ack ∧
      (frame.drop 2).take 4 = four_digits ui_id.toNat ∧
      (frame.drop 6).take 6 = resp.take 6 ∧
      frame.getD 12 0 = 35 := by
  have hf : (send_data ack ui_id resp).take PROTOCOL_TX_BYTES
      = [64, ack] ++ four_digits ui_id.toNat ++ resp.take 6 ++ [35] := by
    rw [send_data_eq ack ui_id resp h6, fmt_04d_of_nonneg ui_id h0 h1]
    simp [four_digits]
  obtain ⟨r0, r1, r2, r3, r4, r5, rr, hR⟩ := list_six _ h6
  refine ⟨_, rfl, ?_, hf, ?_, ?_, ?_, ?_, ?_⟩ <;> rw [hf] <;> simp [four_digits, hR]

/-- Witness of C3: item id 42, ack `O`, result "000123". -/
theorem C3_frame_layout_witness :
    ∃ frame : List Nat,
      protocol_msg_tx (some ⟨0, []⟩) 79 42 (bytes "000123" ++ [0])
        = [Event.uart_write frame, Event.uart_write [10], Event.uart_write [13]] ∧
      frame = bytes "@O0042000123#" := by
  obtain ⟨frame, h1, _, h3, _⟩ := C3_frame_layout ⟨0, []⟩ 79 42 (bytes "000123" ++ [0])
    (by decide) (by decide) (by decide)
  exact ⟨frame, h1, by rw [h3]; decide⟩

/-- C4 (the code at the failing input): for the request `@C0005000500I0010#`,
with the byte `str_ui_id[4]`, which `protocol_parse` never writes, holding
the digit `7`, the item id field of the response is `0057`, not `0005`. -/
theorem C4_item_id_not_echoed :
    protocol_parse (fun _ _ => (1, bytes "000001" ++ [0]))
        ⟨some ⟨0, []⟩, bytes "@C0005000500I0010#" ++ [0]⟩ (List.replicate 7 0) [0, 0, 0, 0, 55]
      = [Event.device_check (bytes "@C0005000500I0010#" ++ [0]),
         Event.uart_write (bytes "@O0057000001#"), Event.uart_write [10],
         Event.uart_write [13]] ∧
    ((bytes "@O0057000001#").drop 2).take 4
      ≠ ((bytes "@C0005000500I0010#" ++ [0]).drop 2).take 4 := by
  decide

/-! ## The frame acceptor -/

/-- C5: `protocol_check` returns 1 exactly when the first byte of the window,
`buf[p_sp % size]`, is `@` and its last byte, `buf[(p_sp + size - 1) % size]`,
is `#`; otherwise it returns 0. -/
theorem C5_protocol_check (var : ptc_var_t) :
    (protocol_check var = 1 ↔
      (var.buf.getD (var.p_sp % var.size) 0 = 64 ∧
       var.buf.getD ((var.p_sp + var.size - 1) % var.size) 0 = 35)) ∧
    (¬ (var.buf.getD (var.p_sp % var.size) 0 = 64 ∧
        var.buf.getD ((var.p_sp + var.size - 1) % var.size) 0 = 35) →
      protocol_check var = 0) := by
  unfold protocol_check
  split_ifs <;> simp_all

/-- C6: `protocol_catch` returns 1 exactly when the byte at offset 1 of the
window, `buf[(p_sp + 1) % size]`, is `C` or `P`; for every other value it
returns 0. -/
theorem C6_protocol_catch (var : ptc_var_t) :
    (protocol_catch var = 1 ↔
      (var.buf.getD ((var.p_sp + 1) % var.size) 0 = 67 ∨
       var.buf.getD ((var.p_sp + 1) % var.size) 0 = 80)) ∧
    (¬ (var.buf.getD ((var.p_sp + 1) % var.size) 0 = 67 ∨
        var.buf.getD ((var.p_sp + 1) % var.size) 0 = 80) →
      protocol_catch var = 0) := by
  unfold protocol_catch
  by_cases h : (var.buf.getD ((var.p_sp + 1) % var.size) 0 = 67 ∨
       var.buf.getD ((var.p_sp + 1) % var.size) 0 = 80)
  · simp only [h, if_true, not_true_eq_false, false_implies, and_self, iff_self]
  · simp only [h, if_false, not_false_eq_true, true_implies, and_true, iff_false]
    decide

/-! ## The heartbeat -/

/-- C7 (counterexample): exactly 1000 ms after the stored timestamp the
elapsed time is at least 1000 ms, and the check does not fire. -/
theorem C7_counterexample_at_interval :
    ¬ ((run_interval_check ⟨0, 0⟩ ALIVE_DISPLAY_INTERVAL ⟨1, 0⟩).2 = 1 ↔
        1000000 ≤ elapsed_us ⟨0, 0⟩ ⟨1, 0⟩) := by
  rw [run_interval_check_fires]
  decide

/-- C7 (amended): the heartbeat check with the interval 1000 fires (returns
1, and 0 otherwise) exactly when the time elapsed since the stored timestamp
is more than 1000 ms; when it fires the stored timestamp becomes `now` and
`client_alive_display` flips the phase, when it does not fire the stored
timestamp and the phase are unchanged. -/
theorem C7_heartbeat_fires_after_interval (t now : timeval) (onoff : Int) :
    ((run_interval_check t ALIVE_DISPLAY_INTERVAL now).2 = 1 ↔
        1000000 < elapsed_us t now) ∧
    ((run_interval_check t ALIVE_DISPLAY_INTERVAL now).2 = 0 ↔
        ¬ 1000000 < elapsed_us t now) ∧
    (1000000 < elapsed_us t now →
      (run_interval_check t ALIVE_DISPLAY_INTERVAL now).1 = now ∧
      (client_alive_display ⟨t, onoff⟩ now).1 = ⟨now, if onoff ≠ 0 then 0 else 1⟩) ∧
    (¬ 1000000 < elapsed_us t now →
      (run_interval_check t ALIVE_DISPLAY_INTERVAL now).1 = t ∧
      (client_alive_display ⟨t, onoff⟩ now).1 = ⟨t, onoff⟩) := by
  unfold client_alive_display
  rw [run_interval_check_fires]
  by_cases h : 1000000 < elapsed_us t now
  · simp [h]
  · simp [h]

/-- C8 (counterexample): from the initial state, a first call at the time
zero does not fire: state unchanged, no display call. -/
theorem C8_counterexample_at_zero :
    (run_interval_check alive_init.i_time ALIVE_DISPLAY_INTERVAL ⟨0, 0⟩).2 = 0 ∧
    client_alive_display alive_init ⟨0, 0⟩ = (alive_init, []) := by
  unfold client_alive_display
  rw [run_interval_check_fires]
  decide

/-- C8 (amended): from the initial state (timestamp zero, phase off) the
first heartbeat call fires for every current time that is more than 1000 ms
after the zero of the clock: the timestamp becomes `now`, the phase on. -/
theorem C8_cold_start (now : timeval)
    (h : 1000000 < now.tv_sec * 1000000 + now.tv_usec) :
    (run_interval_check alive_init.i_time ALIVE_DISPLAY_INTERVAL now).2 = 1 ∧
    (client_alive_display alive_init now).1 = ⟨now, 1⟩ ∧
    (client_alive_display alive_init now).2
      = [Event.ui_set_ritem ALIVE_DISPLAY_UI_ID Color.bc, Event.ui_update] := by
  have h' : 1000000 < elapsed_us ⟨0, 0⟩ now := by
    simp only [elapsed_us]
    omega
  unfold client_alive_display
  rw [run_interval_check_fires]
  simp [h', alive_init]

/-- Witness of C8: a first call at 1700000000 s. -/
theorem C8_cold_start_witness :
    (1000000 : Int) < 1700000000 * 1000000 + 5 ∧
    (client_alive_display alive_init ⟨1700000000, 5⟩).1 = ⟨⟨1700000000, 5⟩, 1⟩ :=
  ⟨by decide, (C8_cold_start ⟨1700000000, 5⟩ (by decide)).2.1⟩

/-! ## The result field and the item id -/

/-- C9 (counterexample): for the request `@C0005000500I0010#`, a collaborator
that passes and stores the string "1", and a terminated `str_ui_id`, the
frame sent is `@O0005`, `1`, five NUL bytes, `#`; it is not `@O0005000001#`. -/
theorem C9_counterexample_padding :
    protocol_parse (fun _ _ => (1, bytes "1" ++ [0]))
        ⟨some ⟨0, []⟩, bytes "@C0005000500I0010#" ++ [0]⟩ (List.replicate 7 0)
        (List.replicate 5 0)
      = [Event.device_check (bytes "@C0005000500I0010#" ++ [0]),
         Event.uart_write (bytes "@O0005" ++ [49, 0, 0, 0, 0, 0] ++ bytes "#"),
         Event.uart_write [10], Event.uart_write [13]] ∧
    bytes "@O0005" ++ [49, 0, 0, 0, 0, 0] ++ bytes "#" ≠ bytes "@O0005000001#" := by
  decide

/-- C9 (amended): for the request `@C0005000500I0010#`, when the byte of
`str_ui_id` behind the copied field does not hold a digit, the item id passed
on is 5, and if the collaborator returns a positive status and stores the
string "1", the frame sent is the 13 bytes `@O0005`, `1`, five NUL bytes, `#`:
the result is padded on the right with NUL bytes. -/
theorem C9_example_frame (device_check : device_check_t) (u : uart_t)
    (tl resp0 str0 : List Nat)
    (hpass : 0 < (device_check (bytes "@C0005000500I0010#" ++ tl)
      (memset resp0 0 SIZE_RESP_BYTES)).1)
    (hres : (device_check (bytes "@C0005000500I0010#" ++ tl)
      (memset resp0 0 SIZE_RESP_BYTES)).2 = bytes "1" ++ [0])
    (ht : isdigit (str0.getD 4 0) = false) :
    int_ui_id ⟨some u, bytes "@C0005000500I0010#" ++ tl⟩ str0 = 5 ∧
    protocol_parse device_check ⟨some u, bytes "@C0005000500I0010#" ++ tl⟩ resp0 str0
      = [Event.device_check (bytes "@C0005000500I0010#" ++ tl),
         Event.uart_write (bytes "@O0005" ++ [49, 0, 0, 0, 0, 0] ++ bytes "#"),
         Event.uart_write [10], Event.uart_write [13]] ∧
    (bytes "@O0005" ++ [49, 0, 0, 0, 0, 0] ++ bytes "#").length = 13 := by
  have hP : (bytes "@C0005000500I0010#" ++ tl).getD 1 0 ≠ 80 := by
    simp [bytes]
  have hf : ((bytes "@C0005000500I0010#" ++ tl).drop 2).take 4 = [48, 48, 48, 53] := by
    simp [bytes]
  have ht' : isdigit ((str0.drop 4).getD 0 0) = false := by
    simpa using ht
  have hid : int_ui_id ⟨some u, bytes "@C0005000500I0010#" ++ tl⟩ str0 = 5 := by
    rw [int_ui_id_eq, hf]
    exact atoi_four_digits 48 48 48 53 (str0.drop 4) (by decide) (by decide) (by decide)
      (by decide) ht'
  refine ⟨hid, ?_, by decide⟩
  rw [protocol_parse_check device_check (some u) _ resp0 str0 hP]
  have h1 : ¬ ((device_check (bytes "@C0005000500I0010#" ++ tl)
      (memset resp0 0 SIZE_RESP_BYTES)).1 < 0) := by omega
  have h2 : (device_check (bytes "@C0005000500I0010#" ++ tl)
      (memset resp0 0 SIZE_RESP_BYTES)).1 ≠ 0 := by omega
  rw [if_neg h1, if_pos h2, hid, hres]
  simp only [protocol_msg_tx]
  rw [send_data_eq _ _ _ (resp_length _ _), resp_of_string]
  have hfr : ([64, 79] ++ List.take 4 (fmt_04d 5) ++
      (if 6 ≤ (bytes "1").length then List.take 6 (bytes "1")
       else bytes "1" ++ List.replicate (6 - (bytes "1").length) 0) ++ [35])
      = bytes "@O0005" ++ [49, 0, 0, 0, 0, 0] ++ bytes "#" := by decide
  rw [hfr]

/-- Witness of C9 (amended). -/
theorem C9_example_frame_witness :
    int_ui_id ⟨some ⟨0, []⟩, bytes "@C0005000500I0010#" ++ [0]⟩ [7, 7, 7, 7, 0] = 5 :=
  (C9_example_frame (fun _ _ => (1, bytes "1" ++ [0])) ⟨0, []⟩ [0] [1, 2, 3, 4, 5, 6, 7]
    [7, 7, 7, 7, 0] (by decide) (by decide) (by decide)).1

/-- C10: on the request path the result buffer is cleared and the
collaborator stores a NUL terminated string `s` in it; the 6 byte result
field of the response is then the first 6 characters of `s` when `s` has at
least 6 characters, and `s` followed by NUL bytes up to 6 bytes when it is
shorter. -/
theorem C10_result_field (device_check : device_check_t) (u : uart_t)
    (rx_msg resp0 str0 s : List Nat) (hP : rx_msg.getD 1 0 ≠ 80)
    (hs : (device_check rx_msg (memset resp0 0 SIZE_RESP_BYTES)).2 = s ++ [0]) :
    ∃ frame : List Nat,
      protocol_parse device_check ⟨some u, rx_msg⟩ resp0 str0
        = [Event.device_check rx_msg, Event.uart_write frame, Event.uart_write [10],
           Event.uart_write [13]] ∧
      frame.length = 13 ∧
      (6 ≤ s.length → (frame.drop 6).take 6 = s.take 6) ∧
      (s.length < 6 → (frame.drop 6).take 6 = s ++ List.replicate (6 - s.length) 0) := by
  rw [protocol_parse_check device_check (some u) rx_msg resp0 str0 hP]
  refine ⟨_, rfl, frame_length _ _ _ (resp_length _ _), ?_, ?_⟩
  · intro h
    rw [frame_result _ _ _ (resp_length _ _), hs, resp_of_string, if_pos h]
  · intro h
    rw [frame_result _ _ _ (resp_length _ _), hs, resp_of_string, if_neg (by omega)]

/-- Witness of C10: the collaborator stores "12". -/
theorem C10_result_field_witness :
    ∃ frame : List Nat,
      protocol_parse (fun _ _ => (1, bytes "12" ++ [0]))
          ⟨some ⟨0, []⟩, bytes "@C0005000500I0010#" ++ [0]⟩ [1, 2, 3, 4, 5, 6, 7] [9, 9, 9, 9, 0]
        = [Event.device_check (bytes "@C0005000500I0010#" ++ [0]), Event.uart_write frame,
           Event.uart_write [10], Event.uart_write [13]] ∧
      (frame.drop 6).take 6 = [49, 50, 0, 0, 0, 0] := by
  obtain ⟨frame, h1, _, _, h4⟩ := C10_result_field (fun _ _ => (1, bytes "12" ++ [0]))
    ⟨0, []⟩ (bytes "@C0005000500I0010#" ++ [0]) [1, 2, 3, 4, 5, 6, 7] [9, 9, 9, 9, 0]
    (bytes "12") (by decide) (by decide)
  exact ⟨frame, h1, by rw [h4 (by decide)]; decide⟩

/-! ## Requests that a decoder would refuse -/

/-- C11 (counterexample): the request `@C0A05000500I00100#` has the letter `A`
in its item id field; `protocol_parse` calls `device_check` and sends the
frame `@O0000000123#`. -/
theorem C11_counterexample_non_digit :
    isdigit ((bytes "@C0A05000500I00100#").getD 3 0) = false ∧
    protocol_parse (fun _ _ => (1, bytes "000123" ++ [0]))
        ⟨some ⟨0, []⟩, bytes "@C0A05000500I00100#" ++ [0]⟩ (List.replicate 7 0)
        (List.replicate 5 0)
      = [Event.device_check (bytes "@C0A05000500I00100#" ++ [0]),
         Event.uart_write (bytes "@O0000000123#"), Event.uart_write [10],
         Event.uart_write [13]] := by
  decide

/-- C11 (amended): for every request that is not a ping, whatever its item id
field holds (also bytes that are not digits), when the byte of `str_ui_id`
behind the field copied holds the NUL, nothing fails: `protocol_parse` calls
`device_check` and sends one frame of 13 bytes, whose item id field is the
`%04d` rendering of what `atoi` reads from the field, a value from -999 to
9999. -/
theorem C11_non_digit_still_answered (device_check : device_check_t) (u : uart_t)
    (rx_msg resp0 str0 : List Nat) (hP : rx_msg.getD 1 0 ≠ 80)
    (hnul : str0.getD 4 0 = 0) :
    ∃ frame : List Nat,
      protocol_parse device_check ⟨some u, rx_msg⟩ resp0 str0
        = [Event.device_check rx_msg, Event.uart_write frame, Event.uart_write [10],
           Event.uart_write [13]] ∧
      frame.length = 13 ∧
      (frame.drop 2).take 4 = fmt_04d (atoi ((rx_msg.drop 2).take 4)) ∧
      -999 ≤ atoi ((rx_msg.drop 2).take 4) ∧ atoi ((rx_msg.drop 2).take 4) ≤ 9999 := by
  obtain ⟨hlo, hhi⟩ := int_ui_id_range (some u) rx_msg str0 hnul
  have hid := int_ui_id_of_nul (some u) rx_msg str0 hnul
  rw [hid] at hlo hhi
  rw [protocol_parse_check device_check (some u) rx_msg resp0 str0 hP]
  refine ⟨_, rfl, frame_length _ _ _ (resp_length _ _), ?_, hlo, hhi⟩
  rw [frame_item_id _ _ _ (resp_length _ _), hid]
  exact List.take_of_length_le (le_of_eq (fmt_04d_length_four _ hlo hhi))

/-- Witness of C11 (amended): the request `@C0A05000500I00100#`. -/
theorem C11_non_digit_still_answered_witness :
    ∃ frame : List Nat,
      protocol_parse (fun _ _ => (1, bytes "000123" ++ [0]))
          ⟨some ⟨0, []⟩, bytes "@C0A05000500I00100#"⟩ [1, 2, 3, 4, 5, 6, 7] [9, 9, 9, 9, 0]
        = [Event.device_check (bytes "@C0A05000500I00100#"), Event.uart_write frame,
           Event.uart_write [10], Event.uart_write [13]] ∧
      frame.length = 13 ∧ (frame.drop 2).take 4 = bytes "0000" := by
  obtain ⟨frame, h1, h2, h3, _⟩ := C11_non_digit_still_answered
    (fun _ _ => (1, bytes "000123" ++ [0])) ⟨0, []⟩ (bytes "@C0A05000500I00100#")
    [1, 2, 3, 4, 5, 6, 7] [9, 9, 9, 9, 0] (by decide) (by decide)
  exact ⟨frame, h1, h2, by rw [h3]; decide⟩

/-- C14 (the code at the failing input): for the request `client_init_data`
builds for the ui id 5, with the byte `str_ui_id[4]`, which `protocol_parse`
never writes, holding the digit `7`, the item id decoded is 57. -/
theorem C14_item_id_not_decoded :
    int_ui_id ⟨none, init_msg (List.replicate 20 0) ⟨5, 0, 0, 0⟩⟩ [0, 0, 0, 0, 55] = 57 ∧
    (init_msg (List.replicate 20 0) ⟨5, 0, 0, 0⟩).take 17 = bytes "@C000500000I0010#" := by
  decide

/-! ## Reception -/

/-- C15: with a uart and a byte read, when after the call of the matcher a
group has its pass flag set, `protocol_msg_rx` returns 1, stores in `rx_msg`
the 19 bytes `buf[(p_sp + i) % size]`, `0 ≤ i < 19`, of the first such group
and keeps the rest of `rx_msg`, clears the pass flag of that group (and sets
its open flag) and leaves the other groups as they are; when no group has its
pass flag set it returns 0 and `rx_msg` is unchanged.  For a group of size 19
that `protocol_check` and `protocol_catch` accept, the request captured has
`@` at index 0, `C` or `P` at index 1 and `#` at index 18. -/
theorem C15_capture (ptc_event : uart_t → Nat → uart_t) (u : uart_t) (rx_msg : List Nat)
    (c : Nat) (r : rx_result)
    (hr : r = protocol_msg_rx ptc_event (some u) rx_msg (some c)) :
    (∀ (k : Nat) (g : ptc_grp_t), k < (ptc_event u c).pcnt →
      (ptc_event u c).p[k]? = some g → g.var.pass ≠ 0 →
      (∀ j, j < k → ∀ gj, (ptc_event u c).p[j]? = some gj → gj.var.pass = 0) →
        r.ret = 1 ∧
        (∀ i, i < 19 → r.rx_msg.getD i 0 = g.var.buf.getD ((g.var.p_sp + i) % g.var.size) 0) ∧
        r.rx_msg.drop 19 = rx_msg.drop 19 ∧
        r.puart = some ⟨(ptc_event u c).pcnt,
          (ptc_event u c).p.set k ⟨{ g.var with pass := 0, open_ := 1 }⟩⟩ ∧
        (∀ u2, r.puart = some u2 →
          u2.p[k]? = some ⟨{ g.var with pass := 0, open_ := 1 }⟩ ∧
          ∀ j, j ≠ k → u2.p[j]? = (ptc_event u c).p[j]?) ∧
        (g.var.size = 19 → protocol_check g.var = 1 → protocol_catch g.var = 1 →
          r.rx_msg.getD 0 0 = 64 ∧ (r.rx_msg.getD 1 0 = 67 ∨ r.rx_msg.getD 1 0 = 80) ∧
          r.rx_msg.getD 18 0 = 35)) ∧
    ((∀ j, j < (ptc_event u c).pcnt → ∀ gj, (ptc_event u c).p[j]? = some gj →
        gj.var.pass = 0) →
      r.ret = 0 ∧ r.rx_msg = rx_msg ∧ r.puart = some (ptc_event u c)) ∧
    r.events = [Event.uart_read, Event.ptc_event c] := by
  subst hr
  refine ⟨?_, ?_, rfl⟩
  · intro k g hk hg hpass hlow
    have hscan := rx_scan_hit (ptc_event u c) rx_msg k g hg hpass (ptc_event u c).pcnt 0
      (Nat.zero_le _) (by omega) (fun j _ h2 => hlow j h2)
    have hrx : (protocol_msg_rx ptc_event (some u) rx_msg (some c)).rx_msg
        = rx_copy g.var rx_msg := by
      simp only [protocol_msg_rx, hscan]
    have hget : ∀ i, i < 19 →
        (protocol_msg_rx ptc_event (some u) rx_msg (some c)).rx_msg.getD i 0
          = g.var.buf.getD ((g.var.p_sp + i) % g.var.size) 0 := by
      intro i hi
      rw [hrx]
      exact rx_copy_getD g.var rx_msg i hi
    have hlen : k < (ptc_event u c).p.length := by
      rcases List.getElem?_eq_some_iff.mp hg with ⟨h, _⟩
      exact h
    refine ⟨?_, hget, ?_, ?_, ?_, ?_⟩
    · simp only [protocol_msg_rx, hscan]
    · rw [hrx]; exact rx_copy_drop g.var rx_msg
    · simp only [protocol_msg_rx, hscan]
    · intro u2 hu2
      simp only [protocol_msg_rx, hscan, Option.some.injEq] at hu2
      subst hu2
      refine ⟨?_, ?_⟩
      · simp [List.getElem?_set, hlen]
      · intro j hj
        simp only [List.getElem?_set]
        rw [if_neg (fun h => hj h.symm)]
    · intro hs hchk hcat
      obtain ⟨h64, h35⟩ := protocol_check_one g.var hchk
      have hcmd := protocol_catch_one g.var hcat
      rw [hget 0 (by omega), hget 1 (by omega), hget 18 (by omega)]
      rw [hs] at h64 h35 hcmd ⊢
      exact ⟨by simpa using h64, hcmd, by simpa using h35⟩
  · intro hnone
    have hscan := rx_scan_none (ptc_event u c) rx_msg (ptc_event u c).pcnt 0
      (fun j _ h2 => hnone j (by omega))
    simp only [protocol_msg_rx, hscan, and_self]

/-- Witness of C15: a group of size 19 whose window, from position 3 on, is
the request `@C0005000500I00110#`. -/
theorem C15_capture_witness :
    (protocol_msg_rx (fun u _ => u)
        (some ⟨1, [⟨⟨19, 3, bytes "10#@C0005000500I001", 1, 0⟩⟩]⟩)
        (List.replicate 20 7) (some 35)).ret = 1 :=
  ((C15_capture (fun u _ => u) ⟨1, [⟨⟨19, 3, bytes "10#@C0005000500I001", 1, 0⟩⟩]⟩
    (List.replicate 20 7) 35 _ rfl).1 0 ⟨⟨19, 3, bytes "10#@C0005000500I001", 1, 0⟩⟩
    (by decide) (by decide) (by decide) (by intro j hj; omega)).1

/-! ## The heartbeat over several calls -/

/-- C16: a call of `client_alive_display` asks for a refresh of the display
(`ui_update`) exactly when the heartbeat fires on that call and the phase
after the flip is on.  Over a sequence of calls from the phase off, a call
that does not fire asks for nothing, the phase after the firings is on, off,
on, ..., and the refresh is asked for at the 1st, 3rd, 5th, ... firing and at
no other. -/
theorem C16_refresh_on_odd_firings (s : alive_t) (now t : timeval) (nows : List timeval) :
    (Event.ui_update ∈ (client_alive_display s now).2 ↔
      ((run_interval_check s.i_time ALIVE_DISPLAY_INTERVAL now).2 = 1 ∧
       (client_alive_display s now).1.onoff ≠ 0)) ∧
    (∀ c ∈ alive_run ⟨t, 0⟩ nows, c.fired = 0 → Event.ui_update ∉ c.events) ∧
    (∀ (j : Nat) (c : alive_call),
      ((alive_run ⟨t, 0⟩ nows).filter (fun c => decide (c.fired ≠ 0)))[j]? = some c →
        c.after.onoff = (if j % 2 = 0 then 1 else 0) ∧
        (Event.ui_update ∈ c.events ↔ j % 2 = 0)) := by
  refine ⟨?_, ?_, ?_⟩
  · rw [alive_events, alive_onoff, run_interval_check_fires]
    by_cases h : 1000000 < elapsed_us s.i_time now <;>
      by_cases h2 : s.onoff ≠ 0 <;> simp [h, h2]
  · intro c hc h0
    rw [alive_run_quiet nows _ c hc h0]
    simp
  · intro j c h
    have := alive_run_firings nows ⟨t, 0⟩ 0 rfl (by omega) j c h
    simpa using this

/-! ## The range of the item id -/

/-- C17 (the code at the failing input): for the request
`@C9999000500I00100#`, with the byte `str_ui_id[4]`, which `protocol_parse`
never writes, holding the digit `7`, the item id given to `protocol_msg_tx`
is 99997; its `%04d` rendering has 5 characters, and with its NUL `sprintf`
stores 6 bytes where the `str_ui_id` of `protocol_msg_tx` has 5. -/
theorem C17_overrun_on_request_path :
    int_ui_id ⟨some ⟨0, []⟩, bytes "@C9999000500I00100#"⟩ [0, 0, 0, 0, 55] = 99997 ∧
    fmt_04d 99997 = bytes "99997" ∧
    (strstore (memset (List.replicate 5 0) 0 5) (fmt_04d 99997)).length = 6 := by
  decide

/-! ## The uart -/

/-- C18: with a uart, `protocol_msg_tx` writes 15 bytes, in this order: the
frame of 13 bytes, a line feed (0x0A), a carriage return (0x0D). -/
theorem C18_wire_bytes (u : uart_t) (ack : Nat) (ui_id : Int) (resp : List Nat)
    (h6 : 6 ≤ resp.length) :
    ∃ frame : List Nat,
      protocol_msg_tx (some u) ack ui_id resp
        = [Event.uart_write frame, Event.uart_write [10], Event.uart_write [13]] ∧
      frame.length = 13 ∧
      uart_bytes (protocol_msg_tx (some u) ack ui_id resp) = frame ++ [10, 13] ∧
      (uart_bytes (protocol_msg_tx (some u) ack ui_id resp)).length = 15 := by
  have hl := frame_length ack ui_id resp h6
  refine ⟨_, rfl, hl, ?_, ?_⟩
  · simp [protocol_msg_tx, uart_bytes]
  · simp [protocol_msg_tx, uart_bytes, hl]

/-- Witness of C18: the ready frame. -/
theorem C18_wire_bytes_witness :
    uart_bytes (protocol_msg_tx (some ⟨0, []⟩) 82 0 (bytes "000000" ++ [0]))
      = bytes "@R0000000000#" ++ [10, 13] := by
  obtain ⟨frame, h1, _, h3, _⟩ := C18_wire_bytes ⟨0, []⟩ 82 0 (bytes "000000" ++ [0])
    (by decide)
  rw [h3]
  have h := h1
  simp only [protocol_msg_tx, ping_frame, List.cons.injEq, Event.uart_write.injEq, and_true] at h
  rw [← h]

/-- C19: without a uart, `protocol_msg_tx` writes nothing and
`protocol_msg_rx` returns 0 with no read, no call of the matcher and `rx_msg`
unchanged; so the loop of `main` never gets to `protocol_parse`: whatever
the inputs of its turns are, the only calls made are those of the heartbeat,
none of `device_check`, of the uart or of the matcher. -/
theorem C19_null_uart (device_check : device_check_t) (ptc_event : uart_t → Nat → uart_t)
    (ack : Nat) (ui_id : Int) (resp rx_msg : List Nat) (rd : Option Nat)
    (st : loop_st) (inputs : List loop_in) (h : st.client.puart = none) :
    protocol_msg_tx none ack ui_id resp = [] ∧
    protocol_msg_rx ptc_event none rx_msg rd = ⟨none, rx_msg, 0, []⟩ ∧
    (main_loop device_check ptc_event st inputs).1.client = st.client ∧
    (main_loop device_check ptc_event st inputs).2
      = ((alive_run st.alive (inputs.map (fun i => i.now))).map (fun c => c.events)).flatten ∧
    (∀ m, Event.device_check m ∉ (main_loop device_check ptc_event st inputs).2) ∧
    (∀ d, Event.uart_write d ∉ (main_loop device_check ptc_event st inputs).2) ∧
    Event.uart_read ∉ (main_loop device_check ptc_event st inputs).2 ∧
    (∀ c, Event.ptc_event c ∉ (main_loop device_check ptc_event st inputs).2) := by
  obtain ⟨h1, h2⟩ := main_loop_null device_check ptc_event inputs st h
  have hui := alive_run_events_ui (inputs.map (fun i => i.now)) st.alive
  rw [← h2] at hui
  refine ⟨rfl, rfl, h1, h2, ?_, ?_, ?_, ?_⟩
  · intro m hm
    rcases hui _ hm with h | ⟨_, _, h⟩ <;> cases h
  · intro d hd
    rcases hui _ hd with h | ⟨_, _, h⟩ <;> cases h
  · intro hr
    rcases hui _ hr with h | ⟨_, _, h⟩ <;> cases h
  · intro c hc
    rcases hui _ hc with h | ⟨_, _, h⟩ <;> cases h

/-- Witness of C19: two turns of the loop with a byte waiting. -/
theorem C19_null_uart_witness :
    (main_loop (fun _ _ => (1, bytes "000123" ++ [0])) (fun u _ => u)
        ⟨alive_init, ⟨none, List.replicate 20 7⟩⟩
        [⟨⟨100, 0⟩, some 64, [], []⟩, ⟨⟨100, 500⟩, some 67, [], []⟩]).1.client
      = ⟨none, List.replicate 20 7⟩ :=
  (C19_null_uart (fun _ _ => (1, bytes "000123" ++ [0])) (fun u _ => u) 82 0
    (bytes "000000" ++ [0]) (List.replicate 20 7) (some 64)
    ⟨alive_init, ⟨none, List.replicate 20 7⟩⟩
    [⟨⟨100, 0⟩, some 64, [], []⟩, ⟨⟨100, 500⟩, some 67, [], []⟩] rfl).2.2.1

end Jig
